import Mathlib

/-
  Verification development for the exam-generation backend
  (src/pages/api/gerar-questoes.ts and its near-duplicate handler variants).

  The pipeline is a request-shaping layer around an external text model:
  normalize input, build a prompt, call the model, recover a JSON object
  from its raw text, sanitize the untyped JSON into typed questions, and
  assemble the final payload.  The definitions below are a shallow
  embedding of that code: JavaScript runtime values are modelled by the
  inductive type Json, JavaScript numbers (which may be NaN or infinite)
  by JSNum, and each source function is translated one-to-one.
-/

namespace BackendGemini

/-- Model of a JSON value as produced by a successful JSON.parse call.
    Numbers are restricted to integers; no claim depends on fractional
    number-to-string formatting. -/
inductive Json where
  | null
  | bool (b : Bool)
  | num (n : Int)
  | str (s : String)
  | arr (elts : List Json)
  | obj (fields : List (String × Json))

/-- First brace character, written without a character literal. -/
def braceOpen : Char := Char.ofNat 123

/-- Closing brace character, written without a character literal. -/
def braceClose : Char := Char.ofNat 125

/-- Association-list lookup used for JavaScript property access on an
    object value (JSON objects have unique keys). -/
def lookupField : List (String × Json) → String → Option Json
  | [], _ => none
  | (kk, v) :: rest, k => if kk = k then some v else lookupField rest k

/-- JavaScript property access j.k for a JSON value: defined on objects,
    undefined (none) on every other value.  Array values have no string
    properties with the names this pipeline reads, so access on them is
    also undefined. -/
def getProp (j : Json) (k : String) : Option Json :=
  match j with
  | Json.obj fs => lookupField fs k
  | _ => none

/-- Source isObject: typeof v is object and v is not null.  In
    JavaScript an array is an object, hence the arr case. -/
def isObject : Json → Bool
  | Json.obj _ => true
  | Json.arr _ => true
  | _ => false

/-- Membership test for the JavaScript expression (k in data): the
    property exists on the value. -/
def hasField (j : Json) (k : String) : Bool :=
  (getProp j k).isSome

/-- Source isRespostaIA: isObject(data) and "questoes" in data. -/
def isRespostaIA (d : Json) : Bool := isObject d && hasField d "questoes"

/-- JavaScript nullish coalescing v ?? d for a possibly-absent property
    value: absent (undefined) and null both fall back to the default. -/
def jsCoalesce (v : Option Json) (d : Json) : Json :=
  match v with
  | none => d
  | some Json.null => d
  | some j => j

mutual
/-- Array.prototype.join with separator "," as used by String(arr):
    null elements render as the empty string. -/
def jsJoin : List Json → String
  | [] => ""
  | [j] => jsElem j
  | j :: js => jsElem j ++ "," ++ jsJoin js

/-- Stringification of one array element inside a join: null becomes
    empty, other values follow the String() conversion. -/
def jsElem : Json → String
  | Json.null => ""
  | Json.bool b => cond b "true" "false"
  | Json.num n => toString n
  | Json.str s => s
  | Json.arr l => jsJoin l
  | Json.obj _ => "[object Object]"
end

/-- JavaScript String(v) conversion for JSON values. -/
def jsString : Json → String
  | Json.null => "null"
  | Json.bool b => cond b "true" "false"
  | Json.num n => toString n
  | Json.str s => s
  | Json.arr l => jsJoin l
  | Json.obj _ => "[object Object]"

/-- Uppercasing as used on candidate answer keys.  ASCII case mapping
    suffices here: non-ASCII letters uppercase (in JavaScript) to
    non-ASCII letters, which are equally outside the A-D answer set. -/
def jsToUpper (s : String) : String := String.mk (s.data.map Char.toUpper)

/-- Lowercasing of one character, covering ASCII plus the accented
    vowels that occur in the recognized difficulty words. -/
def jsCharToLower (c : Char) : Char :=
  if c = 'Á' then 'á'
  else if c = 'É' then 'é'
  else if c = 'Í' then 'í'
  else c.toLower

/-- Lowercasing as used on candidate difficulty words. -/
def jsToLower (s : String) : String := String.mk (s.data.map jsCharToLower)

/-- The four valid answer keys (source constant GABARITOS). -/
def GABARITOS : List String := ["A", "B", "C", "D"]

/-- Source isGabarito: membership of a string in GABARITOS. -/
def isGabarito (s : String) : Bool := GABARITOS.contains s

/-- Source sanitizeGabarito: String(v ?? "A").toUpperCase(), kept when
    it is a valid answer key and replaced by "A" otherwise. -/
def sanitizeGabarito (v : Option Json) : String :=
  let s := jsToUpper (jsString (jsCoalesce v (Json.str "A")))
  if isGabarito s then s else "A"

/-- Source sanitizeDificuldade: String(v ?? "").toLowerCase(), compared
    against the accented and unaccented spellings of the three
    recognized difficulty words; unrecognized values become absent. -/
def sanitizeDificuldade (v : Option Json) : Option String :=
  let s := jsToLower (jsString (jsCoalesce v (Json.str "")))
  if s = "fácil" then some "fácil"
  else if s = "médio" ∨ s = "medio" then some "médio"
  else if s = "difícil" ∨ s = "dificil" then some "difícil"
  else none

/-- Sanitized question record (source type QuestaoIA).  The answer key
    and difficulty stay strings, as at the JavaScript runtime; the
    sanitizers are what establish their invariants. -/
structure QuestaoIA where
  enunciado : String
  alternativaA : String
  alternativaB : String
  alternativaC : String
  alternativaD : String
  gabarito : String
  explicacao : Option String
  dificuldade : Option String
deriving DecidableEq

/-- Coercion String(obj.k ?? "") of a required text field. -/
def strField (q : Json) (k : String) : String :=
  jsString (jsCoalesce (getProp q k) (Json.str ""))

/-- Coercion obj.k != null ? String(obj.k) : undefined of an optional
    text field. -/
def optStrField (q : Json) (k : String) : Option String :=
  match getProp q k with
  | some Json.null => none
  | some v => some (jsString v)
  | none => none

/-- Per-element sanitization in toQuestaoIAList.  The source replaces a
    non-object element by an empty object before reading properties;
    since property access on arrays and primitives yields undefined for
    every name read here, getProp models both branches uniformly. -/
def toQuestao (q : Json) : QuestaoIA :=
  { enunciado := strField q "enunciado"
    alternativaA := strField q "alternativaA"
    alternativaB := strField q "alternativaB"
    alternativaC := strField q "alternativaC"
    alternativaD := strField q "alternativaD"
    gabarito := sanitizeGabarito (getProp q "gabarito")
    explicacao := optStrField q "explicacao"
    dificuldade := sanitizeDificuldade (getProp q "dificuldade") }

/-- Result shell of the sanitizer (title and topic optional, questions
    populated). -/
structure RespostaSanitizada where
  titulo : Option String
  tema : Option String
  questoes : List QuestaoIA
deriving DecidableEq

/-- Source toQuestaoIAList: the question sanitizer.  Unusable shapes
    (top level not an object, missing questoes, questoes not an array)
    yield the empty-question shell; otherwise every element of the
    array is sanitized in order.  The function is total: no input makes
    it fail, mirroring the never-throws contract of the source. -/
def toQuestaoIAList (raw : Json) : RespostaSanitizada :=
  if isRespostaIA raw then
    match getProp raw "questoes" with
    | some (Json.arr l) =>
      { titulo := optStrField raw "titulo"
        tema := optStrField raw "tema"
        questoes := l.map toQuestao }
    | _ => { titulo := none, tema := none, questoes := [] }
  else { titulo := none, tema := none, questoes := [] }

/-- Index of the first occurrence of a character in a character list. -/
def charIndexAux (c : Char) : List Char → Option Nat
  | [] => none
  | x :: xs => if x = c then some 0 else (charIndexAux c xs).map (· + 1)

/-- Source String.prototype.indexOf for a single character, with the
    JavaScript sentinel -1 when the character does not occur. -/
def jsIndexOfChar (s : String) (c : Char) : Int :=
  match charIndexAux c s.data with
  | some i => (i : Int)
  | none => -1

/-- Source String.prototype.lastIndexOf for a single character, with
    the JavaScript sentinel -1 when the character does not occur: the
    last occurrence is located through the first occurrence in the
    reversed text. -/
def jsLastIndexOfChar (s : String) (c : Char) : Int :=
  match charIndexAux c s.data.reverse with
  | some i => ((s.data.length - 1 - i : Nat) : Int)
  | none => -1

/-- Source text.slice(start, stop), modelled for the in-range
    nonnegative arguments extractJson passes it. -/
def jsSlice (s : String) (start stop : Int) : String :=
  String.mk ((s.data.drop start.toNat).take (stop - start).toNat)

/-- Source extractJson (the response recoverer), parameterized by the
    JSON.parse primitive: parse the whole text; on failure locate the
    first opening brace and the last closing brace and parse the
    inclusive substring between them; fail (none, modelling the thrown
    error) when no such well-ordered pair exists or the second parse
    fails.  The safeJsonParse helpers of the handler variants have the
    same denotation with null in place of the thrown error. -/
def extractJson (parse : String → Option Json) (text : String) : Option Json :=
  match parse text with
  | some j => some j
  | none =>
    let start := jsIndexOfChar text braceOpen
    let stop := jsLastIndexOfChar text braceClose
    if 0 ≤ start ∧ start < stop then parse (jsSlice text start (stop + 1))
    else none

/-- Configured model identifiers of the fallback chain, in order. -/
def models : List String := ["gemini-2.5-flash", "gemini-1.5-flash", "gemini-1.5-pro"]

/-- Loop of generateWithFallback: the external generate call is the
    parameter call, mapping a model identifier to either the returned
    text or the failure message; lastErr carries the message of the
    most recent failure. -/
def generateWithFallbackAux (call : String → Except String String) :
    List String → Option String → Except String String
  | [], lastErr =>
    Except.error ("Nenhum modelo disponível. Último erro: " ++ lastErr.getD "erro")
  | name :: rest, _ =>
    match call name with
    | Except.ok t => Except.ok t
    | Except.error e => generateWithFallbackAux call rest (some e)

/-- Source generateWithFallback: try the configured identifiers in
    order starting with no recorded error. -/
def generateWithFallback (call : String → Except String String) : Except String String :=
  generateWithFallbackAux call models none

/-- Model of a JavaScript number as produced by the Number() coercion:
    NaN, an infinity, or a finite value (represented as a rational). -/
inductive JSNum where
  | nan
  | posInf
  | negInf
  | finite (q : ℚ)
deriving DecidableEq

/-- Source Number.isFinite. -/
def jsIsFinite : JSNum → Bool
  | JSNum.finite _ => true
  | _ => false

/-- Source clamp of gerar-questoes: Math.max(min, Math.min(max, n)),
    reached only with finite arguments there. -/
def clamp (n mn mx : ℚ) : ℚ := max mn (min mx n)

/-- Quantity normalization of the handler (gerar-questoes lines
    150-151): the coerced Number falls back to 10 unless finite, then
    is clamped into [10, 30]. -/
def normalizeQuantidade (v : JSNum) : ℚ :=
  clamp (match v with | JSNum.finite q => q | _ => 10) 10 30

/-- Conversion of the clamped quantity to an array index bound, as
    Array.prototype.slice performs it: truncation, which on the
    nonnegative quantities produced by clamp is the floor. -/
def jsTruncNat (q : ℚ) : Nat := (Int.floor q).toNat

/-- Question with the response timestamp (source type QuestaoAPI). -/
structure QuestaoAPI extends QuestaoIA where
  createdAt : String
deriving DecidableEq

/-- Outcome of the handler after the model text is available: either
    the 200 payload or an error response with its HTTP status. -/
inductive ApiResult where
  | ok (titulo : String) (tema : String) (questoes : List QuestaoAPI)
  | err (status : Nat) (error : String) (detail : Option String)
deriving DecidableEq

/-- Whitespace trimming on both ends, as String.prototype.trim. -/
def jsTrim (s : String) : String :=
  String.mk (((s.data.dropWhile Char.isWhitespace).reverse.dropWhile Char.isWhitespace).reverse)

/-- Source expression (t && t.trim()) || d choosing a sanitized title
    or topic: the default replaces an absent, empty or blank value. -/
def defaultIfBlank (t : Option String) (d : String) : String :=
  match t with
  | none => d
  | some s => if s = "" then d else if jsTrim s = "" then d else jsTrim s

/-- Per-question step of the result assembler: backfill the difficulty
    from the request when absent and stamp the shared timestamp. -/
def assembleQuestao (diff : String) (now : String) (q : QuestaoIA) : QuestaoAPI :=
  { toQuestaoIA := { q with dificuldade := some (q.dificuldade.getD diff) }
    createdAt := now }

/-- Pure tail of the handler of gerar-questoes (lines 198-224), from
    the model text onward: recover JSON, sanitize, fail with 500 when
    no usable question remains, otherwise truncate to the requested
    quantity and assemble the payload.  A recovery failure is the
    caught exception turned into the generic 500 response; its detail
    string (the underlying exception message) is not modelled. -/
def handlerPipeline (parse : String → Option Json) (tema : String) (quantidade : ℚ)
    (diff : String) (now : String) (text : String) : ApiResult :=
  match extractJson parse text with
  | none => ApiResult.err 500 "Erro ao gerar prova" none
  | some raw =>
    let parsed := toQuestaoIAList raw
    if parsed.questoes.length = 0 then
      ApiResult.err 500 "Formato inválido retornado pela IA"
        (some "A resposta não trouxe um array válido em questoes.")
    else
      ApiResult.ok
        (defaultIfBlank parsed.titulo ("Simulado - " ++ tema))
        (defaultIfBlank parsed.tema tema)
        (((parsed.questoes.take (jsTruncNat quantidade)).map (assembleQuestao diff now)))

/-- Rendering of an optional text field of the response JSON: present
    values become a string member, absent values no member at all. -/
def encodeOptField (k : String) (v : Option String) : List (String × Json) :=
  match v with
  | some s => [(k, Json.str s)]
  | none => []

/-- JSON rendering of a question that already has the documented
    response shape: every required field a string member, the two
    optional fields present exactly when they carry a value. -/
def encodeQuestao (q : QuestaoIA) : Json :=
  Json.obj ([("enunciado", Json.str q.enunciado),
             ("alternativaA", Json.str q.alternativaA),
             ("alternativaB", Json.str q.alternativaB),
             ("alternativaC", Json.str q.alternativaC),
             ("alternativaD", Json.str q.alternativaD),
             ("gabarito", Json.str q.gabarito)]
            ++ encodeOptField "explicacao" q.explicacao
            ++ encodeOptField "dificuldade" q.dificuldade)

/-- JSON rendering of a whole sanitized response in the documented
    GeneratedExam shape. -/
def encodeResposta (r : RespostaSanitizada) : Json :=
  Json.obj (encodeOptField "titulo" r.titulo
            ++ encodeOptField "tema" r.tema
            ++ [("questoes", Json.arr (r.questoes.map encodeQuestao))])

/-- A question is well formed when its answer key is one of the four
    valid keys and its difficulty, if present, is one of the three
    recognized words in canonical accented spelling. -/
def WFQuestao (q : QuestaoIA) : Prop :=
  q.gabarito ∈ GABARITOS ∧
    (q.dificuldade = none ∨ q.dificuldade = some "fácil" ∨
      q.dificuldade = some "médio" ∨ q.dificuldade = some "difícil")

/-- A sanitized response is well formed when each question is. -/
def WFResposta (r : RespostaSanitizada) : Prop :=
  ∀ q ∈ r.questoes, WFQuestao q

/-- The question produced from an element carrying none of the read
    properties: every text empty, answer key defaulted to A, optional
    fields absent. -/
def questaoVazia : QuestaoIA :=
  ⟨"", "", "", "", "", "A", none, none⟩

section Lemmas

/-- The sanitized answer key always lies in the valid set. -/
theorem sanitizeGabarito_mem (v : Option Json) : sanitizeGabarito v ∈ GABARITOS := by
  unfold sanitizeGabarito
  by_cases h : isGabarito (jsToUpper (jsString (jsCoalesce v (Json.str "A"))))
  · simp only [h, if_true]
    simpa [isGabarito] using h
  · simp [h, GABARITOS]

/-- A successful property read forces the value to be an object holding
    the key, hence the source type guard accepts it. -/
theorem isRespostaIA_of_getProp {raw : Json} {v : Json}
    (h : getProp raw "questoes" = some v) : isRespostaIA raw = true := by
  cases raw with
  | obj fs =>
    simp only [getProp] at h
    simp [isRespostaIA, isObject, hasField, getProp, h]
  | null => simp [getProp] at h
  | bool b => simp [getProp] at h
  | num n => simp [getProp] at h
  | str s => simp [getProp] at h
  | arr l => simp [getProp] at h

/-- Shape of the sanitizer result when the questoes property is an
    array: every element sanitized in order, title and topic read as
    optional strings. -/
theorem toQuestaoIAList_arr {raw : Json} {l : List Json}
    (h : getProp raw "questoes" = some (Json.arr l)) :
    toQuestaoIAList raw =
      ⟨optStrField raw "titulo", optStrField raw "tema", l.map toQuestao⟩ := by
  have hR := isRespostaIA_of_getProp h
  unfold toQuestaoIAList
  rw [hR, h]
  simp

/-- Shape of the sanitizer result when the questoes property is not a
    usable array: the empty-question shell. -/
theorem toQuestaoIAList_not_arr {raw : Json}
    (h : ∀ l, getProp raw "questoes" ≠ some (Json.arr l)) :
    toQuestaoIAList raw = ⟨none, none, []⟩ := by
  unfold toQuestaoIAList
  by_cases hR : isRespostaIA raw
  · rw [if_pos hR]
    cases hQ : getProp raw "questoes" with
    | none => rfl
    | some v => cases v <;> first | rfl | exact absurd hQ (h _)
  · rw [if_neg hR]

/-- Every sanitized question arises from sanitizing some raw element. -/
theorem mem_questoes_toQuestao {raw : Json} {qI : QuestaoIA}
    (h : qI ∈ (toQuestaoIAList raw).questoes) : ∃ x, qI = toQuestao x := by
  by_cases hA : ∃ l, getProp raw "questoes" = some (Json.arr l)
  · obtain ⟨l, hl⟩ := hA
    rw [toQuestaoIAList_arr hl] at h
    obtain ⟨x, _, rfl⟩ := List.mem_map.1 h
    exact ⟨x, rfl⟩
  · push_neg at hA
    rw [toQuestaoIAList_not_arr hA] at h
    simp at h

/-- The normalized quantity always lies in the documented bounds. -/
theorem normalizeQuantidade_bounds (v : JSNum) :
    10 ≤ normalizeQuantidade v ∧ normalizeQuantidade v ≤ 30 := by
  unfold normalizeQuantidade clamp
  refine ⟨le_max_left _ _, max_le (by norm_num) (min_le_left _ _)⟩

/-- Truncation of a natural-number quantity is the identity. -/
theorem jsTruncNat_natCast (m : ℕ) : jsTruncNat ((m : ℚ)) = m := by
  unfold jsTruncNat
  rw [Int.floor_natCast]
  exact Int.toNat_natCast m

/-- Truncation respects natural lower bounds. -/
theorem le_jsTruncNat {q : ℚ} {m : ℕ} (h : (m : ℚ) ≤ q) : m ≤ jsTruncNat q := by
  unfold jsTruncNat
  have hf : (m : ℤ) ≤ Int.floor q := Int.le_floor.2 (by exact_mod_cast h)
  omega

/-- Inversion of a successful pipeline run: the model text was
    recovered to some JSON value, the sanitized list was nonempty, and
    the returned questions are the assembled truncation of it. -/
theorem handlerPipeline_ok {parse : String → Option Json} {tema : String}
    {quantidade : ℚ} {diff now text : String} {t m : String} {qs : List QuestaoAPI}
    (h : handlerPipeline parse tema quantidade diff now text = ApiResult.ok t m qs) :
    ∃ raw, extractJson parse text = some raw ∧
      (toQuestaoIAList raw).questoes.length ≠ 0 ∧
      qs = ((toQuestaoIAList raw).questoes.take (jsTruncNat quantidade)).map
             (assembleQuestao diff now) := by
  cases hE : extractJson parse text with
  | none => simp [handlerPipeline, hE] at h
  | some raw =>
    simp only [handlerPipeline, hE] at h
    by_cases hz : (toQuestaoIAList raw).questoes.length = 0
    · simp [hz] at h
    · refine ⟨raw, rfl, hz, ?_⟩
      rw [if_neg hz] at h
      injection h with h1 h2 h3
      exact h3.symm

/-- An index found by charIndexAux points at the searched character. -/
theorem charIndexAux_get {c : Char} {l : List Char} {i : Nat}
    (h : charIndexAux c l = some i) : l[i]? = some c := by
  induction l generalizing i with
  | nil => simp [charIndexAux] at h
  | cons x xs ih =>
    unfold charIndexAux at h
    by_cases hx : x = c
    · rw [if_pos hx] at h
      injection h with h0
      subst h0
      simp [hx]
    · rw [if_neg hx] at h
      cases hA : charIndexAux c xs with
      | none => rw [hA] at h; simp at h
      | some j =>
        rw [hA] at h
        injection h with h0
        subst h0
        simpa using ih hA

/-- An index found by charIndexAux is within the list. -/
theorem charIndexAux_lt {c : Char} {l : List Char} {i : Nat}
    (h : charIndexAux c l = some i) : i < l.length :=
  (List.getElem?_eq_some_iff.1 (charIndexAux_get h)).1

/-- The indexOf result is the sentinel -1 or a nonnegative index. -/
theorem jsIndexOfChar_cases (s : String) (c : Char) :
    jsIndexOfChar s c = -1 ∨ 0 ≤ jsIndexOfChar s c := by
  unfold jsIndexOfChar
  cases charIndexAux c s.data with
  | none => exact Or.inl rfl
  | some i => exact Or.inr (by positivity)

/-- The lastIndexOf result is the sentinel -1 or a nonnegative index. -/
theorem jsLastIndexOfChar_cases (s : String) (c : Char) :
    jsLastIndexOfChar s c = -1 ∨ 0 ≤ jsLastIndexOfChar s c := by
  unfold jsLastIndexOfChar
  cases charIndexAux c s.data.reverse with
  | none => exact Or.inl rfl
  | some i => exact Or.inr (by positivity)

/-- A nonnegative indexOf result points at the searched character. -/
theorem jsIndexOfChar_get {s : String} {c : Char}
    (h : 0 ≤ jsIndexOfChar s c) :
    s.data[(jsIndexOfChar s c).toNat]? = some c := by
  unfold jsIndexOfChar at h ⊢
  cases hA : charIndexAux c s.data with
  | none => rw [hA] at h; norm_num at h
  | some i => simpa using charIndexAux_get hA

/-- A nonnegative lastIndexOf result points at the searched character. -/
theorem jsLastIndexOfChar_get {s : String} {c : Char}
    (h : 0 ≤ jsLastIndexOfChar s c) :
    s.data[(jsLastIndexOfChar s c).toNat]? = some c := by
  unfold jsLastIndexOfChar at h ⊢
  cases hA : charIndexAux c s.data.reverse with
  | none => rw [hA] at h; norm_num at h
  | some i =>
    have hi : i < s.data.length := by
      have := charIndexAux_lt hA
      simpa using this
    have hrev : s.data.reverse[i]? = some c := charIndexAux_get hA
    rw [List.getElem?_reverse hi] at hrev
    simpa using hrev

/-- The first opening brace and the last closing brace never share an
    index: they are distinct characters. -/
theorem braceIndex_ne {text : String}
    (h1 : 0 ≤ jsIndexOfChar text braceOpen)
    (h2 : 0 ≤ jsLastIndexOfChar text braceClose) :
    jsIndexOfChar text braceOpen ≠ jsLastIndexOfChar text braceClose := by
  intro heq
  have g1 := jsIndexOfChar_get h1
  have g2 := jsLastIndexOfChar_get h2
  rw [heq] at g1
  rw [g2] at g1
  have : braceClose = braceOpen := by injection g1
  exact absurd this (by decide)

/-- Reading the statement field of an encoded question. -/
theorem getProp_encode_enunciado (q : QuestaoIA) :
    getProp (encodeQuestao q) "enunciado" = some (Json.str q.enunciado) := by
  simp [encodeQuestao, getProp, lookupField]

/-- Reading option A of an encoded question. -/
theorem getProp_encode_altA (q : QuestaoIA) :
    getProp (encodeQuestao q) "alternativaA" = some (Json.str q.alternativaA) := by
  simp [encodeQuestao, getProp, lookupField]

/-- Reading option B of an encoded question. -/
theorem getProp_encode_altB (q : QuestaoIA) :
    getProp (encodeQuestao q) "alternativaB" = some (Json.str q.alternativaB) := by
  simp [encodeQuestao, getProp, lookupField]

/-- Reading option C of an encoded question. -/
theorem getProp_encode_altC (q : QuestaoIA) :
    getProp (encodeQuestao q) "alternativaC" = some (Json.str q.alternativaC) := by
  simp [encodeQuestao, getProp, lookupField]

/-- Reading option D of an encoded question. -/
theorem getProp_encode_altD (q : QuestaoIA) :
    getProp (encodeQuestao q) "alternativaD" = some (Json.str q.alternativaD) := by
  simp [encodeQuestao, getProp, lookupField]

/-- Reading the answer key of an encoded question. -/
theorem getProp_encode_gabarito (q : QuestaoIA) :
    getProp (encodeQuestao q) "gabarito" = some (Json.str q.gabarito) := by
  simp [encodeQuestao, getProp, lookupField]

/-- Reading the explanation of an encoded question. -/
theorem getProp_encode_explicacao (q : QuestaoIA) :
    getProp (encodeQuestao q) "explicacao" = (q.explicacao).map Json.str := by
  cases h : q.explicacao <;> cases hd : q.dificuldade <;>
    simp [encodeQuestao, encodeOptField, getProp, lookupField, h, hd]

/-- Reading the difficulty of an encoded question. -/
theorem getProp_encode_dificuldade (q : QuestaoIA) :
    getProp (encodeQuestao q) "dificuldade" = (q.dificuldade).map Json.str := by
  cases h : q.explicacao <;> cases hd : q.dificuldade <;>
    simp [encodeQuestao, encodeOptField, getProp, lookupField, h, hd]

/-- A required text field reads back the stored string. -/
theorem strField_of_getProp {j : Json} {k s : String}
    (h : getProp j k = some (Json.str s)) : strField j k = s := by
  simp [strField, h, jsCoalesce, jsString]

/-- An optional text field reads back the stored optional string. -/
theorem optStrField_of_map {j : Json} {k : String} {o : Option String}
    (h : getProp j k = o.map Json.str) : optStrField j k = o := by
  cases o with
  | none => simp [optStrField, h]
  | some s =>
    have h2 : getProp j k = some (Json.str s) := h
    simp [optStrField, h2, jsString]

/-- Sanitizing an encoded well-formed question recovers it exactly. -/
theorem toQuestao_encodeQuestao {q : QuestaoIA} (h : WFQuestao q) :
    toQuestao (encodeQuestao q) = q := by
  obtain ⟨hg, hd⟩ := h
  simp only [GABARITOS, List.mem_cons, List.not_mem_nil, or_false] at hg
  have e1 := strField_of_getProp (getProp_encode_enunciado q)
  have e2 := strField_of_getProp (getProp_encode_altA q)
  have e3 := strField_of_getProp (getProp_encode_altB q)
  have e4 := strField_of_getProp (getProp_encode_altC q)
  have e5 := strField_of_getProp (getProp_encode_altD q)
  have e7 := optStrField_of_map (getProp_encode_explicacao q)
  have e6 : sanitizeGabarito (getProp (encodeQuestao q) "gabarito") = q.gabarito := by
    rw [getProp_encode_gabarito]
    rcases hg with hg | hg | hg | hg <;> rw [hg] <;> decide
  have e8 : sanitizeDificuldade (getProp (encodeQuestao q) "dificuldade") = q.dificuldade := by
    rw [getProp_encode_dificuldade]
    rcases hd with hd | hd | hd | hd <;> rw [hd] <;> decide
  cases q with
  | mk e a b c d g ex df =>
    simp only [toQuestao, QuestaoIA.mk.injEq]
    exact ⟨e1, e2, e3, e4, e5, e6, e7, e8⟩

/-- The questoes member of an encoded response is the encoded list. -/
theorem getProp_encodeResposta_questoes (r : RespostaSanitizada) :
    getProp (encodeResposta r) "questoes" =
      some (Json.arr (r.questoes.map encodeQuestao)) := by
  cases h1 : r.titulo <;> cases h2 : r.tema <;>
    simp [encodeResposta, encodeOptField, getProp, lookupField, h1, h2]

/-- The title member of an encoded response reads back. -/
theorem optStrField_encodeResposta_titulo (r : RespostaSanitizada) :
    optStrField (encodeResposta r) "titulo" = r.titulo := by
  cases h1 : r.titulo <;> cases h2 : r.tema <;>
    simp [encodeResposta, encodeOptField, optStrField, getProp, lookupField, h1, h2, jsString]

/-- The topic member of an encoded response reads back. -/
theorem optStrField_encodeResposta_tema (r : RespostaSanitizada) :
    optStrField (encodeResposta r) "tema" = r.tema := by
  cases h1 : r.titulo <;> cases h2 : r.tema <;>
    simp [encodeResposta, encodeOptField, optStrField, getProp, lookupField, h1, h2, jsString]

/-- Reading any property of a JavaScript primitive yields undefined. -/
theorem getProp_eq_none_of_not_obj {x : Json} (h : isObject x = false) (k : String) :
    getProp x k = none := by
  cases x <;> simp_all [isObject, getProp]

/-- An element carrying none of the read properties sanitizes to the
    default-filled question. -/
theorem toQuestao_no_props {x : Json} (h : ∀ k, getProp x k = none) :
    toQuestao x = questaoVazia := by
  unfold toQuestao questaoVazia
  simp only [QuestaoIA.mk.injEq]
  refine ⟨?_, ?_, ?_, ?_, ?_, ?_, ?_, ?_⟩
  · simp [strField, h, jsCoalesce, jsString]
  · simp [strField, h, jsCoalesce, jsString]
  · simp [strField, h, jsCoalesce, jsString]
  · simp [strField, h, jsCoalesce, jsString]
  · simp [strField, h, jsCoalesce, jsString]
  · rw [h]; decide
  · simp [optStrField, h]
  · rw [h]; decide

/-- The assembler step does not alter the answer key. -/
theorem assembleQuestao_gabarito (diff now : String) (q : QuestaoIA) :
    (assembleQuestao diff now q).gabarito = q.gabarito := by
  cases q; rfl

end Lemmas

section Claims

/-- Parse primitive that recovers a fixed JSON value from any text,
    used to exercise the pipeline on concrete runs. -/
def parseConst (j : Json) : String → Option Json := fun _ => some j

/-- Raw model response holding one empty question object. -/
def rawUmaQuestao : Json := Json.obj [("questoes", Json.arr [Json.obj []])]

/-- Raw model response holding an empty question array. -/
def rawSemQuestoes : Json := Json.obj [("questoes", Json.arr [])]

/-- Raw model response holding three elements, the third no object. -/
def rawTresElementos : Json :=
  Json.obj [("questoes", Json.arr [Json.obj [], Json.obj [], Json.num 1])]

/-- Fully defaulted assembled question with backfilled difficulty. -/
def questaoPadraoMedio : QuestaoAPI :=
  ⟨⟨"", "", "", "", "", "A", none, some "médio"⟩, "T0"⟩

/-- Claim C1: for every JSON value, the question sanitizer returns a
    result — toQuestaoIAList is a total function of the whole Json
    type, the embedded form of the never-throws contract — and on every
    unusable shape (top level without a questoes property, or questoes
    not an array, which covers non-object top levels) it returns the
    empty-question result; on a usable shape it maps the sanitizer over
    the array, so it also never fails on malformed elements or fields. -/
theorem C1_sanitizer_total (raw : Json) :
    (isRespostaIA raw = false → toQuestaoIAList raw = ⟨none, none, []⟩) ∧
    ((∀ l, getProp raw "questoes" ≠ some (Json.arr l)) →
      toQuestaoIAList raw = ⟨none, none, []⟩) ∧
    (toQuestaoIAList raw = ⟨none, none, []⟩ ∨
      ∃ l, getProp raw "questoes" = some (Json.arr l) ∧
        (toQuestaoIAList raw).questoes = l.map toQuestao) := by
  refine ⟨fun h => ?_, fun h => toQuestaoIAList_not_arr h, ?_⟩
  · unfold toQuestaoIAList
    rw [h]
    simp
  · by_cases hA : ∃ l, getProp raw "questoes" = some (Json.arr l)
    · obtain ⟨l, hl⟩ := hA
      exact Or.inr ⟨l, hl, by rw [toQuestaoIAList_arr hl]⟩
    · push_neg at hA
      exact Or.inl (toQuestaoIAList_not_arr hA)

/-- Witness for C1 at a non-object top-level value. -/
theorem C1_witness : toQuestaoIAList (Json.str "sem estrutura") = ⟨none, none, []⟩ :=
  (C1_sanitizer_total (Json.str "sem estrutura")).1 rfl

/-- Claim C2: the sanitizer validates the answer key case-insensitively
    against the four valid keys, substituting A for a missing or
    invalid value and uppercasing a valid lowercase one; consequently
    every question of a successful pipeline response carries a valid
    answer key. -/
theorem C2_gabarito_always_valid :
    sanitizeGabarito none = "A" ∧
    sanitizeGabarito (some (Json.str "z")) = "A" ∧
    sanitizeGabarito (some (Json.str "b")) = "B" ∧
    ∀ (parse : String → Option Json) (tema : String) (quantidade : ℚ)
      (diff now text t m : String) (qs : List QuestaoAPI),
      handlerPipeline parse tema quantidade diff now text = ApiResult.ok t m qs →
      ∀ qu ∈ qs, qu.gabarito ∈ GABARITOS := by
  refine ⟨by decide, by decide, by decide, ?_⟩
  intro parse tema quantidade diff now text t m qs h qu hqu
  obtain ⟨raw, hE, hne, rfl⟩ := handlerPipeline_ok h
  obtain ⟨q1, hq1, rfl⟩ := List.mem_map.1 hqu
  have hq2 : q1 ∈ (toQuestaoIAList raw).questoes := List.mem_of_mem_take hq1
  obtain ⟨x, rfl⟩ := mem_questoes_toQuestao hq2
  rw [assembleQuestao_gabarito]
  exact sanitizeGabarito_mem _

/-- Witness for C2 on a concrete successful pipeline run. -/
theorem C2_witness : questaoPadraoMedio.gabarito ∈ GABARITOS :=
  C2_gabarito_always_valid.2.2.2 (parseConst rawUmaQuestao) "Direito" 10 "médio" "T0" "x"
    "Simulado - Direito" "Direito" [questaoPadraoMedio] (by decide)
    questaoPadraoMedio (by decide)

/-- Claim C3: the response recoverer first parses the whole text; on
    failure it takes the substring from the first opening brace to the
    last closing brace inclusive and parses that; and it fails exactly
    when the whole-text parse fails and additionally no opening brace
    exists, or no closing brace exists, or the last closing brace
    precedes the first opening brace, or the substring parse fails. -/
theorem C3_recoverer_spec (parse : String → Option Json) (text : String) :
    (∀ j, parse text = some j → extractJson parse text = some j) ∧
    (parse text = none →
      ((∀ s e : Int, jsIndexOfChar text braceOpen = s →
          jsLastIndexOfChar text braceClose = e → 0 ≤ s → s < e →
          extractJson parse text = parse (jsSlice text s (e + 1))) ∧
       (extractJson parse text = none ↔
         jsIndexOfChar text braceOpen = -1 ∨
         jsLastIndexOfChar text braceClose = -1 ∨
         jsLastIndexOfChar text braceClose < jsIndexOfChar text braceOpen ∨
         parse (jsSlice text (jsIndexOfChar text braceOpen)
                  (jsLastIndexOfChar text braceClose + 1)) = none))) := by
  constructor
  · intro j hj
    simp [extractJson, hj]
  · intro hn
    have hred : extractJson parse text =
        if 0 ≤ jsIndexOfChar text braceOpen ∧
            jsIndexOfChar text braceOpen < jsLastIndexOfChar text braceClose then
          parse (jsSlice text (jsIndexOfChar text braceOpen)
                 (jsLastIndexOfChar text braceClose + 1))
        else none := by
      simp [extractJson, hn]
    constructor
    · intro s e hs he h0 hlt
      subst hs
      subst he
      rw [hred, if_pos ⟨h0, hlt⟩]
    · rw [hred]
      by_cases hc : 0 ≤ jsIndexOfChar text braceOpen ∧
          jsIndexOfChar text braceOpen < jsLastIndexOfChar text braceClose
      · rw [if_pos hc]
        obtain ⟨hc1, hc2⟩ := hc
        constructor
        · intro hp
          exact Or.inr (Or.inr (Or.inr hp))
        · intro hd
          rcases hd with h1 | h1 | h1 | h1
          · omega
          · omega
          · omega
          · exact h1
      · rw [if_neg hc]
        constructor
        · intro _
          rcases jsIndexOfChar_cases text braceOpen with h1 | h1
          · exact Or.inl h1
          · rcases jsLastIndexOfChar_cases text braceClose with h2 | h2
            · exact Or.inr (Or.inl h2)
            · have h3 : ¬ jsIndexOfChar text braceOpen <
                  jsLastIndexOfChar text braceClose := fun hlt => hc ⟨h1, hlt⟩
              have h4 := not_lt.1 h3
              have h5 := braceIndex_ne h1 h2
              exact Or.inr (Or.inr (Or.inl
                (lt_of_le_of_ne h4 (fun hh => h5 hh.symm))))
        · intro _
          rfl

/-- Model text with prose noise around an embedded JSON fragment. -/
def textoComRuido : String :=
  String.mk ['r', 'u', 'i', 'd', 'o', braceOpen, 'j', braceClose, 'f', 'i', 'm']

/-- The embedded fragment between the braces of textoComRuido. -/
def trechoJson : String := String.mk [braceOpen, 'j', braceClose]

/-- Parse primitive succeeding exactly on the embedded fragment. -/
def parseTrecho : String → Option Json :=
  fun s => if s = trechoJson then some (Json.obj []) else none

/-- Witness for C3 on text whose whole-text parse fails and whose
    brace-delimited substring is recovered. -/
theorem C3_witness :
    extractJson parseTrecho textoComRuido = parseTrecho (jsSlice textoComRuido 5 (7 + 1)) :=
  ((C3_recoverer_spec parseTrecho textoComRuido).2 (by rfl)).1 5 7
    (by decide) (by decide) (by decide) (by decide)

/-- Claim C4: for a natural requested quantity m, a successful pipeline
    response carries exactly min m n questions, where n is the number
    of questions the recovered model response yielded. -/
theorem C4_truncation (parse : String → Option Json) (tema : String) (m : ℕ)
    (diff now text t tm : String) (qs : List QuestaoAPI) (raw : Json)
    (hE : extractJson parse text = some raw)
    (h : handlerPipeline parse tema ((m : ℚ)) diff now text = ApiResult.ok t tm qs) :
    qs.length = min m (toQuestaoIAList raw).questoes.length := by
  obtain ⟨raw2, hE2, hne, rfl⟩ := handlerPipeline_ok h
  rw [hE] at hE2
  injection hE2 with hE3
  subst hE3
  rw [List.length_map, List.length_take, jsTruncNat_natCast]

/-- Witness for C4: quantity 2 against 3 returned questions gives 2. -/
theorem C4_witness :
    ([questaoPadraoMedio, questaoPadraoMedio] : List QuestaoAPI).length =
      min 2 (toQuestaoIAList rawTresElementos).questoes.length :=
  C4_truncation (parseConst rawTresElementos) "Direito" 2 "médio" "T0" "x"
    "Simulado - Direito" "Direito" [questaoPadraoMedio, questaoPadraoMedio]
    rawTresElementos (by rfl) (by decide)

/-- Claim C5: the normalized quantity always lies in [10, 30], and a
    value that does not coerce to a finite number normalizes to the
    default 10. -/
theorem C5_quantity_clamped (v : JSNum) :
    10 ≤ normalizeQuantidade v ∧ normalizeQuantidade v ≤ 30 ∧
      (jsIsFinite v = false → normalizeQuantidade v = 10) := by
  refine ⟨(normalizeQuantidade_bounds v).1, (normalizeQuantidade_bounds v).2, fun h => ?_⟩
  have h10 : clamp 10 10 30 = 10 := by
    unfold clamp
    rw [min_eq_right (by norm_num : (10:ℚ) ≤ 30), max_self]
  cases v with
  | finite q => simp [jsIsFinite] at h
  | nan => exact h10
  | posInf => exact h10
  | negInf => exact h10

/-- Witness for C5 at a non-numeric input and an out-of-range one. -/
theorem C5_witness :
    normalizeQuantidade JSNum.nan = 10 ∧
      10 ≤ normalizeQuantidade (JSNum.finite 50) ∧
      normalizeQuantidade (JSNum.finite 50) ≤ 30 :=
  ⟨(C5_quantity_clamped JSNum.nan).2.2 rfl,
   (C5_quantity_clamped (JSNum.finite 50)).1,
   (C5_quantity_clamped (JSNum.finite 50)).2.1⟩

/-- Claim C6: running the handler with a normalized quantity, an empty
    sanitized question list always produces the 500 format error, and a
    successful response never carries zero questions. -/
theorem C6_empty_list_is_500 (parse : String → Option Json) (tema : String)
    (v : JSNum) (diff now text : String) :
    (∀ raw, extractJson parse text = some raw →
      (toQuestaoIAList raw).questoes = [] →
      handlerPipeline parse tema (normalizeQuantidade v) diff now text =
        ApiResult.err 500 "Formato inválido retornado pela IA"
          (some "A resposta não trouxe um array válido em questoes.")) ∧
    (∀ t m qs, handlerPipeline parse tema (normalizeQuantidade v) diff now text =
        ApiResult.ok t m qs → qs ≠ []) := by
  constructor
  · intro raw hE hEmpty
    simp [handlerPipeline, hE, hEmpty]
  · intro t m qs h hnil
    obtain ⟨raw, hE, hne, hqs⟩ := handlerPipeline_ok h
    have hk : 1 ≤ jsTruncNat (normalizeQuantidade v) := by
      refine le_jsTruncNat (le_trans ?_ (normalizeQuantidade_bounds v).1)
      norm_num
    have hlen := congrArg List.length hqs
    rw [hnil] at hlen
    simp only [List.length_nil, List.length_map, List.length_take] at hlen
    omega

/-- Witness for C6 on a model response with an empty question array. -/
theorem C6_witness :
    handlerPipeline (parseConst rawSemQuestoes) "Direito"
        (normalizeQuantidade (JSNum.finite 10)) "médio" "T0" "x" =
      ApiResult.err 500 "Formato inválido retornado pela IA"
        (some "A resposta não trouxe um array válido em questoes.") :=
  (C6_empty_list_is_500 (parseConst rawSemQuestoes) "Direito" (JSNum.finite 10)
    "médio" "T0" "x").1 rawSemQuestoes rfl rfl

/-- Claim C7: the fallback chain tries the three configured identifiers
    in order, returns the first successful text — the universal
    quantification over the call primitive makes the result independent
    of the behavior of any later identifier, the embedded form of the
    later-identifiers-not-attempted contract — and when all three fail
    it fails with a message carrying the last underlying error. -/
theorem C7_fallback_chain (call : String → Except String String) :
    (∀ t, call "gemini-2.5-flash" = Except.ok t →
      generateWithFallback call = Except.ok t) ∧
    (∀ e1 t, call "gemini-2.5-flash" = Except.error e1 →
      call "gemini-1.5-flash" = Except.ok t →
      generateWithFallback call = Except.ok t) ∧
    (∀ e1 e2 t, call "gemini-2.5-flash" = Except.error e1 →
      call "gemini-1.5-flash" = Except.error e2 →
      call "gemini-1.5-pro" = Except.ok t →
      generateWithFallback call = Except.ok t) ∧
    (∀ e1 e2 e3, call "gemini-2.5-flash" = Except.error e1 →
      call "gemini-1.5-flash" = Except.error e2 →
      call "gemini-1.5-pro" = Except.error e3 →
      generateWithFallback call =
        Except.error ("Nenhum modelo disponível. Último erro: " ++ e3)) := by
  refine ⟨?_, ?_, ?_, ?_⟩ <;>
    · intros
      simp_all [generateWithFallback, models, generateWithFallbackAux]

/-- Call primitive on which every model identifier fails. -/
def chamadaFalha : String → Except String String :=
  fun _ => Except.error "rede indisponível"

/-- Witness for C7 when every identifier fails. -/
theorem C7_witness :
    generateWithFallback chamadaFalha =
      Except.error ("Nenhum modelo disponível. Último erro: " ++ "rede indisponível") :=
  (C7_fallback_chain chamadaFalha).2.2.2 "rede indisponível" "rede indisponível"
    "rede indisponível" rfl rfl rfl

/-- Counterexample to Claim C8 as stated: the unaccented spelling of
    fácil is not accepted by the difficulty sanitizer — the comparison
    chain of the source has unaccented branches for medio and dificil
    but none for facil — so sanitizing the concrete value facil (in
    either letter case) yields absence instead of the canonical value
    the claim asserts. -/
theorem C8_counterexample :
    sanitizeDificuldade (some (Json.str "facil")) = none ∧
    sanitizeDificuldade (some (Json.str "FACIL")) = none :=
  ⟨by decide, by decide⟩

/-- Claim C8 (amended): the difficulty sanitizer accepts médio and
    difícil in both accented and unaccented spellings, and fácil only
    in its accented spelling, case-insensitively in each case; it
    yields one of the three canonical values or absence, leaves the
    field absent on every unrecognized value — including the
    unaccented spelling facil — and the assembler backfills an absent
    difficulty from the request difficulty. -/
theorem C8_dificuldade_amended (v : Option Json) (diff now : String) (q : QuestaoIA) :
    sanitizeDificuldade (some (Json.str "fácil")) = some "fácil" ∧
    sanitizeDificuldade (some (Json.str "FÁCIL")) = some "fácil" ∧
    sanitizeDificuldade (some (Json.str "facil")) = none ∧
    sanitizeDificuldade (some (Json.str "médio")) = some "médio" ∧
    sanitizeDificuldade (some (Json.str "MEDIO")) = some "médio" ∧
    sanitizeDificuldade (some (Json.str "difícil")) = some "difícil" ∧
    sanitizeDificuldade (some (Json.str "Dificil")) = some "difícil" ∧
    (sanitizeDificuldade v = none ∨ sanitizeDificuldade v = some "fácil" ∨
      sanitizeDificuldade v = some "médio" ∨ sanitizeDificuldade v = some "difícil") ∧
    (jsToLower (jsString (jsCoalesce v (Json.str ""))) ∉
        (["fácil", "médio", "medio", "difícil", "dificil"] : List String) →
      sanitizeDificuldade v = none) ∧
    (q.dificuldade = none → (assembleQuestao diff now q).dificuldade = some diff) := by
  refine ⟨by decide, by decide, by decide, by decide, by decide, by decide, by decide,
    ?_, ?_, ?_⟩
  · simp only [sanitizeDificuldade]
    split_ifs <;> simp
  · intro hmem
    simp only [sanitizeDificuldade]
    split_ifs with h1 h2 h3
    · exact absurd (by rw [h1]; simp) hmem
    · rcases h2 with h2 | h2 <;> exact absurd (by rw [h2]; simp) hmem
    · rcases h3 with h3 | h3 <;> exact absurd (by rw [h3]; simp) hmem
    · rfl
  · intro h
    simp [assembleQuestao, h]

/-- Question with every field defaulted and no difficulty. -/
def questaoSemDificuldade : QuestaoIA := ⟨"", "", "", "", "", "A", none, none⟩

/-- Witness for C8 at an unrecognized difficulty and a backfill. -/
theorem C8_witness :
    sanitizeDificuldade (some (Json.str "hard")) = none ∧
      (assembleQuestao "médio" "T0" questaoSemDificuldade).dificuldade = some "médio" :=
  ⟨(C8_dificuldade_amended (some (Json.str "hard")) "médio" "T0"
      questaoSemDificuldade).2.2.2.2.2.2.2.2.1 (by decide),
   (C8_dificuldade_amended (some (Json.str "hard")) "médio" "T0"
      questaoSemDificuldade).2.2.2.2.2.2.2.2.2 rfl⟩

/-- Claim C9: sanitizing the JSON rendering of an already well-formed
    response — all required fields present as strings, valid canonical
    answer key, difficulty absent or one of the three canonical words —
    recovers the response unchanged (the createdAt stamp is added only
    later, by the assembler). -/
theorem C9_sanitize_idempotent (r : RespostaSanitizada) (h : WFResposta r) :
    toQuestaoIAList (encodeResposta r) = r := by
  rw [toQuestaoIAList_arr (getProp_encodeResposta_questoes r)]
  have ht := optStrField_encodeResposta_titulo r
  have hm := optStrField_encodeResposta_tema r
  unfold WFResposta at h
  cases r with
  | mk ti te qs =>
    simp only [RespostaSanitizada.mk.injEq]
    refine ⟨ht, hm, ?_⟩
    rw [List.map_map]
    have hmap : ∀ q ∈ qs, (toQuestao ∘ encodeQuestao) q = id q := by
      intro q hq
      exact toQuestao_encodeQuestao (h q hq)
    rw [List.map_congr_left hmap, List.map_id]

/-- Concrete well-formed response for the C9 witness. -/
def respostaBemFormada : RespostaSanitizada :=
  ⟨some "Simulado - Direito", some "Direito",
   [⟨"Qual princípio rege a administração?", "Legalidade", "Anterioridade",
     "Oralidade", "Preclusão", "B", some "Art. 37 da CF.", some "fácil"⟩]⟩

/-- Witness for C9 on a concrete well-formed response. -/
theorem C9_witness : toQuestaoIAList (encodeResposta respostaBemFormada) = respostaBemFormada :=
  C9_sanitize_idempotent respostaBemFormada
    (by simp [WFResposta, WFQuestao, GABARITOS, respostaBemFormada])

/-- Claim C10: when the questoes property is an array of n elements,
    the sanitized result has exactly n questions, the i-th output is
    the sanitization of the i-th input element, and a non-object
    element becomes the default-filled question rather than being
    dropped. -/
theorem C10_count_order_preserved (raw : Json) (l : List Json)
    (h : getProp raw "questoes" = some (Json.arr l)) :
    (toQuestaoIAList raw).questoes.length = l.length ∧
    (∀ i : ℕ, (toQuestaoIAList raw).questoes[i]? = (l[i]?).map toQuestao) ∧
    (∀ x, isObject x = false → toQuestao x = questaoVazia) := by
  rw [toQuestaoIAList_arr h]
  refine ⟨by simp, fun i => by simp, fun x hx =>
    toQuestao_no_props (getProp_eq_none_of_not_obj hx)⟩

/-- Witness for C10 on a three-element array with a non-object entry. -/
theorem C10_witness :
    (toQuestaoIAList rawTresElementos).questoes.length =
      ([Json.obj [], Json.obj [], Json.num 1] : List Json).length :=
  (C10_count_order_preserved rawTresElementos
    [Json.obj [], Json.obj [], Json.num 1] rfl).1

end Claims

end BackendGemini
